import Mathlib

/-!
Verification development for the trh-platform deployment orchestration engine.

The Go backend persists three mutable entity tables (stacks, deployments,
integrations) plus an append-only log table, and its services mutate them
through GORM repository methods.  This file shallowly embeds those repository
methods as pure functions on an explicit database value, embeds the service
operations that the specification describes (create, stop, resume-adjacent
failure handling, update-network, terminate, bridge install/uninstall) as
compositions of the repository functions, and proves the specified properties.

Conventions of the embedding:
* UUIDs are modelled as `Nat` identifiers supplied by the caller (the Go code
  draws them from `uuid.New()`).
* `time.Now()` values are modelled as explicit `now : Nat` parameters.
* JSON (un)marshalling of structured configuration is modelled by storing the
  structured value directly; opaque remainders of a payload live in `rest`
  fields.  Marshalling never fails in the model, matching the Go happy path.
* A GORM `UPDATE ... WHERE ...` is a `List.map` that rewrites exactly the rows
  matching the WHERE clause; a `SELECT ... WHERE` is a `List.filter`/`find?`.
* External driver calls are parameters of the task functions: a `Bool` for
  client construction and an outcome value for the call itself.
-/

namespace TrhPlatform

/-! ## Status enumerations (backend/pkg/domain/entities/enums.go) -/

/-- Stack status enum, `entities.StackStatus`. -/
inductive StackStatus where
  | Pending
  | Deployed
  | Stopped
  | Deploying
  | Updating
  | Terminating
  | Terminated
  | FailedToDeploy
  | FailedToUpdate
  | FailedToTerminate
  | Unknown
deriving DecidableEq, Repr

/-- Integration-row status enum, `entities.DeploymentStatus` (used for
Integration rows in the Go code despite its name). -/
inductive DeploymentStatus where
  | Pending
  | InProgress
  | Failed
  | Stopped
  | Completed
  | Terminating
  | Terminated
  | Unknown
deriving DecidableEq, Repr

/-- Deployment-step run status enum, `entities.DeploymentRunStatus`. -/
inductive DeploymentRunStatus where
  | Pending
  | InProgress
  | Failed
  | Success
  | Stopped
deriving DecidableEq, Repr

/-! ## String constants (pkg/constants, pkg/enum/integration.go) -/

namespace constants

def DeployL1ContractsStep : String := "deploy-l1-contracts"

def DeployInfraStep : String := "deploy-aws-infra"

def DestroyChainStep : String := "destroy-chain"

def InstallBridgeStep : String := "install-bridge"

def UninstallBridgeStep : String := "uninstall-bridge"

end constants

namespace enum

def IntegrationTypeBridge : String := "bridge"

def IntegrationTypeRegisterCandidate : String := "register-candidate"

def IntegrationTypeRegisterMetadataDAO : String := "register-metadata-dao"

end enum

/-! ## Entities (backend/pkg/domain/entities) -/

/-- The structured part of `dtos.DeployThanosRequest` that the modelled
operations read or rewrite; every other field of the request is opaque to the
claims and lives in `rest`. -/
structure DeployThanosRequest where
  network : String
  registerCandidate : Bool
  l1RpcUrl : String
  l1BeaconUrl : String
  chainName : String
  rest : String
deriving DecidableEq, Repr

/-- `entities.StackEntity`.  The stack stores its creation request as its
configuration blob; of the metadata blob only the bridge URL field is touched
by the modelled operations, kept here as `metadataBridgeUrl`. -/
structure StackEntity where
  id : Nat
  name : String
  network : String
  config : DeployThanosRequest
  deploymentPath : String
  status : StackStatus
  reason : String
  metadataBridgeUrl : String
deriving DecidableEq, Repr

/-- `entities.DeploymentEntity`: one executable step of a stack lifecycle. -/
structure DeploymentEntity where
  id : Nat
  stackId : Nat
  step : String
  status : DeploymentRunStatus
  logPath : String
  config : String
  startedAt : Option Nat
  finishedAt : Option Nat
deriving DecidableEq, Repr

/-- `entities.IntegrationEntity`: install state of one add-on for a stack. -/
structure IntegrationEntity where
  id : Nat
  stackId : Nat
  type : String
  status : DeploymentStatus
  config : String
  info : String
  reason : String
  logPath : String
deriving DecidableEq, Repr

/-- The persisted store the repositories operate on. -/
structure DB where
  stackRows : List StackEntity
  deployments : List DeploymentEntity
  integrations : List IntegrationEntity
deriving DecidableEq, Repr

/-- `entities.Response`, the uniform result envelope.  The only structured
data payload the modelled operations return is the new stack id. -/
structure Response where
  status : Nat
  message : String
  dataStackId : Option Nat
deriving DecidableEq, Repr

/-- Result of a synchronous service entry point: the HTTP-style response, the
database after the synchronous writes, and whether a background task was
handed to the task manager. -/
structure SyncResult where
  response : Response
  db : DB
  scheduled : Bool
deriving DecidableEq, Repr

/-- `utils.GetLogPath`, opaque to all claims. -/
def getLogPath (stackId : Nat) (step : String) : String :=
  toString stackId ++ "-" ++ step

/-! ## Stack repository (infrastructure/postgres/repositories — StackRepository) -/

namespace StackRepository

/-- `StackRepository.UpdateStatus`: update the status of the stacks matching
the id, updating the reason column only when the given reason is nonempty. -/
def updateStatus (db : DB) (id : Nat) (status : StackStatus) (reason : String) : DB :=
  { db with stackRows := db.stackRows.map fun s =>
      if s.id = id then
        if reason = "" then { s with status := status }
        else { s with status := status, reason := reason }
      else s }

/-- `StackRepository.UpdateConfig`. -/
def updateConfig (db : DB) (id : Nat) (config : DeployThanosRequest) : DB :=
  { db with stackRows := db.stackRows.map fun s =>
      if s.id = id then { s with config := config } else s }

/-- `StackRepository.UpdateMetadata`, restricted to the bridge-URL field that
the modelled operations write. -/
def updateMetadataBridgeUrl (db : DB) (id : Nat) (url : String) : DB :=
  { db with stackRows := db.stackRows.map fun s =>
      if s.id = id then { s with metadataBridgeUrl := url } else s }

/-- `StackRepository.GetStackByID`; `none` models the not-found error. -/
def getStackByID (db : DB) (id : Nat) : Option StackEntity :=
  db.stackRows.find? fun s => s.id == id

/-- `StackRepository.CreateStackByTx`: the single atomic create of a stack
with its deployment and integration rows. -/
def createStackByTx (db : DB) (stack : StackEntity)
    (deployments : List DeploymentEntity) (integrations : List IntegrationEntity) : DB :=
  { db with
    stackRows := db.stackRows ++ [stack]
    deployments := db.deployments ++ deployments
    integrations := db.integrations ++ integrations }

end StackRepository

/-! ## Deployment repository (repositories — DeploymentRepository) -/

namespace DeploymentRepository

/-- `DeploymentRepository.CreateDeployment`: stamps `started_at` when created
in progress and `finished_at` when created already terminal, then inserts. -/
def createDeployment (db : DB) (deployment : DeploymentEntity) (now : Nat) : DB :=
  let d1 :=
    if deployment.status = DeploymentRunStatus.InProgress then
      { deployment with startedAt := some now }
    else deployment
  let d2 :=
    if d1.status = DeploymentRunStatus.Success ∨ d1.status = DeploymentRunStatus.Failed ∨
        d1.status = DeploymentRunStatus.Stopped then
      { d1 with finishedAt := some now }
    else d1
  { db with deployments := db.deployments ++ [d2] }

/-- `DeploymentRepository.UpdateDeploymentStatus`: single-row status update
that refuses to touch rows already in `Success` or `Failed`, stamping
`started_at`/`finished_at` according to the new status. -/
def updateDeploymentStatus (db : DB) (id : Nat) (status : DeploymentRunStatus) (now : Nat) : DB :=
  { db with deployments := db.deployments.map fun d =>
      if d.id = id ∧ d.status ≠ DeploymentRunStatus.Success ∧
          d.status ≠ DeploymentRunStatus.Failed then
        { d with
          status := status
          startedAt := if status = DeploymentRunStatus.InProgress then some now else d.startedAt
          finishedAt :=
            if status = DeploymentRunStatus.Failed ∨ status = DeploymentRunStatus.Success then
              some now
            else d.finishedAt }
      else d }

/-- `DeploymentRepository.UpdateStatusesByStackId`: bulk per-stack status
update whose WHERE clause excludes only rows in `Success`. -/
def updateStatusesByStackId (db : DB) (stackId : Nat) (status : DeploymentRunStatus) : DB :=
  { db with deployments := db.deployments.map fun d =>
      if d.stackId = stackId ∧ d.status ≠ DeploymentRunStatus.Success then
        { d with status := status }
      else d }

/-- `DeploymentRepository.GetDeploymentsByStackID` (row order irrelevant to
the modelled uses). -/
def getDeploymentsByStackID (db : DB) (stackId : Nat) : List DeploymentEntity :=
  db.deployments.filter fun d => d.stackId == stackId

end DeploymentRepository

/-! ## Integration repository (repositories — IntegrationRepository) -/

namespace IntegrationRepository

/-- `IntegrationRepository.CreateIntegration`. -/
def createIntegration (db : DB) (integration : IntegrationEntity) : DB :=
  { db with integrations := db.integrations ++ [integration] }

/-- `IntegrationRepository.UpdateIntegrationStatus` (single row by id). -/
def updateIntegrationStatus (db : DB) (id : Nat) (status : DeploymentStatus) : DB :=
  { db with integrations := db.integrations.map fun i =>
      if i.id = id then { i with status := status } else i }

/-- `IntegrationRepository.UpdateIntegrationStatusWithReason`. -/
def updateIntegrationStatusWithReason (db : DB) (id : Nat) (status : DeploymentStatus)
    (reason : String) : DB :=
  { db with integrations := db.integrations.map fun i =>
      if i.id = id then { i with status := status, reason := reason } else i }

/-- `IntegrationRepository.UpdateIntegrationStatusByStackID`: bulk per-stack
update whose WHERE clause excludes only rows in `Completed`. -/
def updateIntegrationStatusByStackID (db : DB) (stackId : Nat) (status : DeploymentStatus) : DB :=
  { db with integrations := db.integrations.map fun i =>
      if i.stackId = stackId ∧ i.status ≠ DeploymentStatus.Completed then
        { i with status := status }
      else i }

/-- `IntegrationRepository.UpdateIntegrationsStatusByStackID`: bulk per-stack
update with status and type exclusion lists, each applied only when
nonempty. -/
def updateIntegrationsStatusByStackID (db : DB) (stackId : Nat) (status : DeploymentStatus)
    (exceptStatuses : List DeploymentStatus) (exceptTypes : List String) : DB :=
  { db with integrations := db.integrations.map fun i =>
      if i.stackId = stackId ∧ (exceptStatuses = [] ∨ i.status ∉ exceptStatuses) ∧
          (exceptTypes = [] ∨ i.type ∉ exceptTypes) then
        { i with status := status }
      else i }

/-- `IntegrationRepository.GetActiveIntegrations`: all rows of the stack and
type whose status is not `Terminated`. -/
def getActiveIntegrations (db : DB) (stackId : Nat) (integrationType : String) :
    List IntegrationEntity :=
  db.integrations.filter fun i =>
    i.stackId == stackId && i.type == integrationType &&
      !(i.status == DeploymentStatus.Terminated)

/-- `IntegrationRepository.GetInstalledIntegration`: first row of the stack
and type whose status is in the installed set. -/
def getInstalledIntegration (db : DB) (stackId : Nat) (integrationType : String) :
    Option IntegrationEntity :=
  db.integrations.find? fun i =>
    i.stackId == stackId && i.type == integrationType &&
      [DeploymentStatus.Completed, DeploymentStatus.Failed, DeploymentStatus.InProgress,
        DeploymentStatus.Pending, DeploymentStatus.Unknown].contains i.status

end IntegrationRepository

/-! ## Log repository (repositories/log.go)

A log row carries a creation timestamp and an id; the repository reads are
ordered by `(created_at, id)`.  `ORDER BY created_at ASC, id ASC` is embedded
as an insertion sort under the lexicographic order `logLe`, and
`ORDER BY created_at DESC, id DESC LIMIT n` followed by the in-code slice
reversal is embedded as reversing the ascending sort before the take and
reversing back — on a table whose `(created_at, id)` pairs are distinct (ids
are the primary key) the two readings of the descending sort coincide. -/

/-- `schemas.Log` / `entities.LogEntity`, restricted to the columns the
pagination logic reads. -/
structure LogRow where
  id : Nat
  createdAt : Nat
  stackId : Nat
  deploymentId : Nat
  message : String
deriving DecidableEq, Repr

/-- Nonstrict lexicographic order on `(created_at, id)`. -/
def logLe (a b : LogRow) : Prop :=
  a.createdAt < b.createdAt ∨ (a.createdAt = b.createdAt ∧ a.id ≤ b.id)

/-- Strict lexicographic order on `(created_at, id)`; `logAfter c r` is
exactly the SQL cursor condition
`created_at > c.created_at OR (created_at = c.created_at AND id > c.id)`. -/
def logAfter (c r : LogRow) : Prop :=
  c.createdAt < r.createdAt ∨ (c.createdAt = r.createdAt ∧ c.id < r.id)

instance : DecidableRel logLe := fun a b =>
  decidable_of_iff (a.createdAt < b.createdAt ∨ (a.createdAt = b.createdAt ∧ a.id ≤ b.id)) Iff.rfl

instance : DecidableRel logAfter := fun c r =>
  decidable_of_iff (c.createdAt < r.createdAt ∨ (c.createdAt = r.createdAt ∧ c.id < r.id)) Iff.rfl

instance : IsTotal LogRow logLe :=
  ⟨fun a b => by unfold logLe; omega⟩

instance : IsTrans LogRow logLe :=
  ⟨fun a b c hab hbc => by unfold logLe at hab hbc ⊢; omega⟩

namespace LogRepository

/-- `ORDER BY created_at ASC, id ASC` on a result set. -/
def sortLogsAsc (rows : List LogRow) : List LogRow :=
  rows.insertionSort logLe

/-- The no-cursor read: the last `limit` rows by `(created_at, id)` descending,
reversed into ascending order (log.go lines 50-60). -/
def recentPage (rows : List LogRow) (limit : Nat) : List LogRow :=
  (((sortLogsAsc rows).reverse).take limit).reverse

/-- The cursor read: rows strictly after the cursor in `(created_at, id)`
order, ascending, limited (log.go lines 40-47). -/
def afterPage (rows : List LogRow) (cursor : LogRow) (limit : Nat) : List LogRow :=
  (sortLogsAsc (rows.filter fun r => decide (logAfter cursor r))).take limit

/-- `LogRepository.GetLogsByDeploymentID`: with a nonempty `afterID` the
cursor row is fetched by id from the whole table; if it is absent the read
silently falls back to the no-cursor branch. -/
def getLogsByDeploymentID (logs : List LogRow) (deploymentId : Nat) (limit : Nat)
    (afterID : Option Nat) : List LogRow :=
  let rows := logs.filter fun r => r.deploymentId == deploymentId
  match afterID with
  | none => recentPage rows limit
  | some cid =>
    match logs.find? (fun r => r.id == cid) with
    | none => recentPage rows limit
    | some cursor => afterPage rows cursor limit

/-- `LogRepository.GetLogsByStackID`: identical to the per-deployment read
with the stack-id column in the WHERE clauses. -/
def getLogsByStackID (logs : List LogRow) (stackId : Nat) (limit : Nat)
    (afterID : Option Nat) : List LogRow :=
  let rows := logs.filter fun r => r.stackId == stackId
  match afterID with
  | none => recentPage rows limit
  | some cid =>
    match logs.find? (fun r => r.id == cid) with
    | none => recentPage rows limit
    | some cursor => afterPage rows cursor limit

end LogRepository

/-! ## Stack lifecycle orchestrator (services/thanos) -/

namespace ThanosService

/-- `dtos.UpdateNetworkRequest`. -/
structure UpdateNetworkRequest where
  l1RpcUrl : String
  l1BeaconUrl : String
deriving DecidableEq, Repr

/-- Outcome of one external driver call inside a task; `panicked` carries the
panic value as a string (the Go recover handler renders it with
`fmt.Sprint`). -/
inductive DriverCall where
  | ok
  | err (msg : String)
  | panicked (value : String)
deriving DecidableEq, Repr

/-- `getThanosStackDeployments` (services/thanos/helpers.go): the deploy step
rows for one attempt — the L1-contracts step is skipped when some earlier
deployment row of the stack already completed it with `Success`, the
AWS-infrastructure step is always included, and both are created `Pending`. -/
def getThanosStackDeployments (db : DB) (stackId : Nat) (config : DeployThanosRequest)
    (l1DeploymentId infraDeploymentId : Nat) : List DeploymentEntity :=
  let deployContracts := DeploymentRepository.getDeploymentsByStackID db stackId
  let deployedContracts := deployContracts.any fun d =>
    d.step == constants.DeployL1ContractsStep && d.status == DeploymentRunStatus.Success
  let l1ContractDeployment : DeploymentEntity :=
    { id := l1DeploymentId
      stackId := stackId
      step := constants.DeployL1ContractsStep
      status := DeploymentRunStatus.Pending
      logPath := getLogPath stackId constants.DeployL1ContractsStep
      config := config.l1RpcUrl ++ config.rest
      startedAt := none
      finishedAt := none }
  let thanosInfrastructureDeployment : DeploymentEntity :=
    { id := infraDeploymentId
      stackId := stackId
      step := constants.DeployInfraStep
      status := DeploymentRunStatus.Pending
      logPath := getLogPath stackId constants.DeployInfraStep
      config := config.chainName ++ config.l1BeaconUrl
      startedAt := none
      finishedAt := none }
  (if deployedContracts then [] else [l1ContractDeployment]) ++
    [thanosInfrastructureDeployment]

/-- `CreateThanosStack` (stack_lifecycle.go lines 19-95): persists, in one
`CreateStackByTx` transaction, the stack in `Pending`, a Bridge integration
row in `Pending` (install-by-default), a Candidate-Registration row in
`Pending` only when requested, and the step rows; then schedules the deploy
task and returns the new stack id. -/
def createThanosStack (db : DB) (request : DeployThanosRequest)
    (stackId bridgeIntegrationId registerCandidateIntegrationId
      l1DeploymentId infraDeploymentId : Nat) : SyncResult :=
  let stack : StackEntity :=
    { id := stackId
      name := "thanos"
      network := request.network
      config := request
      deploymentPath := getLogPath stackId request.network
      status := StackStatus.Pending
      reason := ""
      metadataBridgeUrl := "" }
  let bridgeIntegration : IntegrationEntity :=
    { id := bridgeIntegrationId
      stackId := stackId
      type := enum.IntegrationTypeBridge
      status := DeploymentStatus.Pending
      config := ""
      info := ""
      reason := ""
      logPath := "" }
  let registerCandidateIntegration : IntegrationEntity :=
    { id := registerCandidateIntegrationId
      stackId := stackId
      type := enum.IntegrationTypeRegisterCandidate
      status := DeploymentStatus.Pending
      config := ""
      info := ""
      reason := ""
      logPath := "" }
  let integrations :=
    [bridgeIntegration] ++
      (if request.registerCandidate then [registerCandidateIntegration] else [])
  let deployments :=
    getThanosStackDeployments db stackId request l1DeploymentId infraDeploymentId
  let db1 := StackRepository.createStackByTx db stack deployments integrations
  { response := { status := 200, message := "Successfully", dataStackId := some stackId }
    db := db1
    scheduled := true }

/-- The failure branch of the `deploy` task (unnamed deploy helper, lines
21-52): when `executeDeployments` returns a non-cancellation error, the stack
is set to `FailedToDeploy` with the error text as reason and the bulk
integration update marks the stack integrations `Failed`, excluding rows
already `Terminated` and excluding the `register-candidate` type. -/
def deployOnFailure (db : DB) (stackId : Nat) (errMsg : String) : DB :=
  let db1 := StackRepository.updateStatus db stackId StackStatus.FailedToDeploy errMsg
  IntegrationRepository.updateIntegrationsStatusByStackID db1 stackId
    DeploymentStatus.Failed
    [DeploymentStatus.Terminated]
    [enum.IntegrationTypeRegisterCandidate]

/-- Rejection message of `StopDeployingThanosStack` for each non-`Deploying`
status (stack_lifecycle.go lines 115-160). -/
def stopRejectionMessage (status : StackStatus) : String :=
  match status with
  | StackStatus.Deployed =>
    "Stack is already deployed, if you want to stop it, please use the terminate it"
  | StackStatus.Terminating => "Stack is terminating, please wait for it to finish"
  | StackStatus.Terminated => "Stack is terminated, you cannot stop it"
  | StackStatus.FailedToDeploy => "Stack failed to deploy, you cannot stop it"
  | StackStatus.FailedToTerminate => "Stack failed to terminate, you cannot stop it"
  | _ => "Stack is not deploying, yet. Please wait for it to finish"

/-- `StopDeployingThanosStack` (stack_lifecycle.go lines 97-195): legal only
while `Deploying`; cancels the deploy task, sets the stack `Stopped`, then
runs the two bulk updates `UpdateStatusesByStackId` (deployments to
`Stopped`, excluding `Success`) and `UpdateIntegrationStatusByStackID`
(integrations to `Stopped`, excluding `Completed`). -/
def stopDeployingThanosStack (db : DB) (stackId : Nat) : SyncResult :=
  match StackRepository.getStackByID db stackId with
  | none =>
    { response := { status := 500, message := "Internal server error", dataStackId := none }
      db := db
      scheduled := false }
  | some stack =>
    if stack.status ≠ StackStatus.Deploying then
      { response :=
          { status := 400, message := stopRejectionMessage stack.status, dataStackId := none }
        db := db
        scheduled := false }
    else
      let db1 := StackRepository.updateStatus db stackId StackStatus.Stopped ""
      let db2 := DeploymentRepository.updateStatusesByStackId db1 stackId
        DeploymentRunStatus.Stopped
      let db3 := IntegrationRepository.updateIntegrationStatusByStackID db2 stackId
        DeploymentStatus.Stopped
      { response := { status := 200, message := "Successfully", dataStackId := none }
        db := db3
        scheduled := false }

/-- The asynchronous body scheduled by `UpdateNetwork` (stack_lifecycle.go
lines 345-373), parameterised by the captured stack configuration and the
driver outcome: on driver success the stored configuration is rewritten with
the new L1 RPC and Beacon URLs and the stack returns to `Deployed`; on driver
error the task returns without writing anything. -/
def updateNetworkTask (db : DB) (stackId : Nat) (capturedConfig : DeployThanosRequest)
    (request : UpdateNetworkRequest) (driverResult : Except String Unit) : DB :=
  match driverResult with
  | Except.error _ => db
  | Except.ok _ =>
    let newConfig :=
      { capturedConfig with
        l1RpcUrl := request.l1RpcUrl
        l1BeaconUrl := request.l1BeaconUrl }
    let db1 := StackRepository.updateConfig db stackId newConfig
    StackRepository.updateStatus db1 stackId StackStatus.Deployed ""

/-- `UpdateNetwork` synchronous part (stack_lifecycle.go lines 279-344):
rejected unless the stack is `Deployed`; the SDK client is constructed before
any write (`clientOk` models its outcome), then the stack is set `Updating`
and the task is scheduled. -/
def updateNetwork (db : DB) (stackId : Nat) (request : UpdateNetworkRequest)
    (clientOk : Bool) : SyncResult :=
  match StackRepository.getStackByID db stackId with
  | none =>
    { response := { status := 500, message := "Internal server error", dataStackId := none }
      db := db
      scheduled := false }
  | some stack =>
    if stack.status ≠ StackStatus.Deployed then
      { response :=
          { status := 400
            message := "Stack is not deployed, yet. Please wait for it to finish"
            dataStackId := none }
        db := db
        scheduled := false }
    else if !clientOk then
      { response := { status := 500, message := "Internal server error", dataStackId := none }
        db := db
        scheduled := false }
    else
      { response := { status := 200, message := "Successfully", dataStackId := none }
        db := StackRepository.updateStatus db stackId StackStatus.Updating ""
        scheduled := true }

/-- `TerminateThanosStack` synchronous part (stack_lifecycle.go lines
382-430): rejected while `Deploying`, `Updating` or `Terminating`; otherwise
the stack status is written to `Pending` (the in-code comment calls it
"pending termination") and the termination task is scheduled. -/
def terminateThanosStack (db : DB) (stackId : Nat) : SyncResult :=
  match StackRepository.getStackByID db stackId with
  | none =>
    { response := { status := 500, message := "Internal server error", dataStackId := none }
      db := db
      scheduled := false }
  | some stack =>
    if stack.status = StackStatus.Deploying ∨ stack.status = StackStatus.Updating ∨
        stack.status = StackStatus.Terminating then
      { response :=
          { status := 400
            message :=
              "The stacks is still deploying, updating or terminating, please wait for it to finish"
            dataStackId := none }
        db := db
        scheduled := false }
    else
      { response := { status := 200, message := "Successfully", dataStackId := none }
        db := StackRepository.updateStatus db stackId StackStatus.Pending ""
        scheduled := true }

/-- The writes of `handleStackTermination` (termination.go lines 18-95) that
precede the driver destroy call: create the `destroy-chain` deployment row in
progress, construct the SDK client (`clientOk`; on failure the task returns
with only the row created), set the stack `Terminating`, and move the
non-`Terminated` integrations other than the registration types to
`Terminating`.  Config unmarshalling is structural in the model and cannot
fail. -/
def terminationPrepare (db : DB) (stack : StackEntity) (terminationDeploymentId : Nat)
    (clientOk : Bool) (now : Nat) : DB :=
  let terminationDeployment : DeploymentEntity :=
    { id := terminationDeploymentId
      stackId := stack.id
      step := constants.DestroyChainStep
      status := DeploymentRunStatus.InProgress
      logPath := getLogPath stack.id "destroy"
      config := ""
      startedAt := none
      finishedAt := none }
  let db1 := DeploymentRepository.createDeployment db terminationDeployment now
  if !clientOk then db1
  else
    let db2 := StackRepository.updateStatus db1 stack.id StackStatus.Terminating ""
    IntegrationRepository.updateIntegrationsStatusByStackID db2 stack.id
      DeploymentStatus.Terminating
      [DeploymentStatus.Terminated]
      [enum.IntegrationTypeRegisterCandidate, enum.IntegrationTypeRegisterMetadataDAO]

/-- `handleStackTermination` (termination.go lines 18-147): after the
preparatory writes the driver destroy runs; on failure the stack is set
`FailedToTerminate` with the error text and the destroy deployment row
`Failed`; on success the stack is set `Terminated`, the integrations (other
than the registration types) `Terminated`, and the row `Success`. -/
def handleStackTermination (db : DB) (stack : StackEntity) (terminationDeploymentId : Nat)
    (clientOk : Bool) (destroyResult : Except String Unit) (now now2 : Nat) : DB :=
  let db3 := terminationPrepare db stack terminationDeploymentId clientOk now
  if !clientOk then db3
  else
    match destroyResult with
    | Except.error e =>
      let db4 := StackRepository.updateStatus db3 stack.id StackStatus.FailedToTerminate e
      DeploymentRepository.updateDeploymentStatus db4 terminationDeploymentId
        DeploymentRunStatus.Failed now2
    | Except.ok _ =>
      let db4 := StackRepository.updateStatus db3 stack.id StackStatus.Terminated ""
      let db5 := IntegrationRepository.updateIntegrationsStatusByStackID db4 stack.id
        DeploymentStatus.Terminated
        []
        [enum.IntegrationTypeRegisterCandidate, enum.IntegrationTypeRegisterMetadataDAO]
      DeploymentRepository.updateDeploymentStatus db5 terminationDeploymentId
        DeploymentRunStatus.Success now2

end ThanosService

/-! ## Bridge integration handler (integrations — BridgeIntegration) -/

namespace BridgeIntegration

/-- `BridgeIntegration.Install` (lines 655-731): rejected unless the stack is
`Deployed`; rejected when `GetActiveIntegrations` finds any bridge row not in
`Terminated`; otherwise creates a `Pending` bridge integration row and
schedules the install task. -/
def install (db : DB) (stackId : Nat) (newIntegrationId : Nat) : SyncResult :=
  match StackRepository.getStackByID db stackId with
  | none =>
    { response := { status := 500, message := "Internal server error", dataStackId := none }
      db := db
      scheduled := false }
  | some stack =>
    if stack.status ≠ StackStatus.Deployed then
      { response :=
          { status := 400
            message := "Stack is not deployed, yet. Please wait for it to finish"
            dataStackId := none }
        db := db
        scheduled := false }
    else if 0 < (IntegrationRepository.getActiveIntegrations db stackId
        enum.IntegrationTypeBridge).length then
      { response :=
          { status := 400, message := "There is already an active bridge", dataStackId := none }
        db := db
        scheduled := false }
    else
      let bridgeIntegration : IntegrationEntity :=
        { id := newIntegrationId
          stackId := stackId
          type := enum.IntegrationTypeBridge
          status := DeploymentStatus.Pending
          config := "\x7b\x7d"
          info := ""
          reason := ""
          logPath := getLogPath stackId "bridge" }
      { response := { status := 200, message := "Successfully", dataStackId := none }
        db := IntegrationRepository.createIntegration db bridgeIntegration
        scheduled := true }

/-- `BridgeIntegration.uninstallTask` (lines 891-980), parameterised by the
SDK-client construction outcome and the driver uninstall outcome.  A panic in
the driver call lands in the deferred recover, which — the integration having
been loaded and the uninstall deployment row created — marks the deployment
row `Failed` and the integration `Failed` with the panic value as reason,
exactly the two writes of the driver-error branch in the same order. -/
def uninstallTask (db : DB) (stack : StackEntity) (stackId : Nat)
    (uninstallDeploymentId : Nat) (clientOk : Bool)
    (call : ThanosService.DriverCall) (now now2 : Nat) : DB :=
  match IntegrationRepository.getInstalledIntegration db stackId enum.IntegrationTypeBridge with
  | none => db
  | some integration =>
    let db1 := IntegrationRepository.updateIntegrationStatus db integration.id
      DeploymentStatus.Terminating
    let uninstallDeployment : DeploymentEntity :=
      { id := uninstallDeploymentId
        stackId := stack.id
        step := constants.UninstallBridgeStep
        status := DeploymentRunStatus.InProgress
        logPath := getLogPath stack.id "uninstall-bridge"
        config := "\x7b\x7d"
        startedAt := none
        finishedAt := none }
    let db2 := DeploymentRepository.createDeployment db1 uninstallDeployment now
    if !clientOk then db2
    else
      match call with
      | ThanosService.DriverCall.ok =>
        let db3 := IntegrationRepository.updateIntegrationStatus db2 integration.id
          DeploymentStatus.Terminated
        let db4 := StackRepository.updateMetadataBridgeUrl db3 stackId ""
        DeploymentRepository.updateDeploymentStatus db4 uninstallDeploymentId
          DeploymentRunStatus.Success now2
      | ThanosService.DriverCall.err msg =>
        let db3 := DeploymentRepository.updateDeploymentStatus db2 uninstallDeploymentId
          DeploymentRunStatus.Failed now2
        IntegrationRepository.updateIntegrationStatusWithReason db3 integration.id
          DeploymentStatus.Failed msg
      | ThanosService.DriverCall.panicked value =>
        let db3 := DeploymentRepository.updateDeploymentStatus db2 uninstallDeploymentId
          DeploymentRunStatus.Failed now2
        IntegrationRepository.updateIntegrationStatusWithReason db3 integration.id
          DeploymentStatus.Failed value

end BridgeIntegration

/-! ## Lemmas about the log pagination -/

theorem logAfter_logLe {a b : LogRow} (h : logAfter a b) : logLe a b := by
  unfold logAfter at h
  unfold logLe
  omega

theorem sorted_logLe_of_sorted_logAfter {l : List LogRow}
    (h : List.Sorted logAfter l) : List.Sorted logLe l :=
  List.Pairwise.imp (fun hab => logAfter_logLe hab) h

theorem sorted_logAfter_filter {l : List LogRow} (h : List.Sorted logAfter l)
    (p : LogRow → Bool) : List.Sorted logAfter (l.filter p) :=
  List.Pairwise.sublist (List.filter_sublist l) h

theorem sortLogsAsc_eq_self {l : List LogRow} (h : List.Sorted logAfter l) :
    LogRepository.sortLogsAsc l = l :=
  List.Sorted.insertionSort_eq (sorted_logLe_of_sorted_logAfter h)

theorem recentPage_eq_drop {rows : List LogRow} (limit : Nat)
    (h : List.Sorted logAfter rows) :
    LogRepository.recentPage rows limit = rows.drop (rows.length - limit) := by
  unfold LogRepository.recentPage
  rw [sortLogsAsc_eq_self h, List.reverse_take, List.reverse_reverse, List.length_reverse]

theorem length_recentPage (rows : List LogRow) (limit : Nat) :
    (LogRepository.recentPage rows limit).length = min limit rows.length := by
  unfold LogRepository.recentPage LogRepository.sortLogsAsc
  simp [(List.perm_insertionSort logLe rows).length_eq]

theorem afterPage_eq_take {rows : List LogRow} (cursor : LogRow) (limit : Nat)
    (h : List.Sorted logAfter rows) :
    LogRepository.afterPage rows cursor limit =
      (rows.filter fun r => decide (logAfter cursor r)).take limit := by
  unfold LogRepository.afterPage
  rw [sortLogsAsc_eq_self (sorted_logAfter_filter h _)]

theorem afterPage_sorted {rows : List LogRow} (cursor : LogRow) (limit : Nat)
    (h : List.Sorted logAfter rows) :
    List.Sorted logAfter (LogRepository.afterPage rows cursor limit) := by
  rw [afterPage_eq_take cursor limit h]
  exact List.Pairwise.sublist (List.take_sublist _ _) (sorted_logAfter_filter h _)

theorem afterPage_mem_after {rows : List LogRow} {cursor : LogRow} {limit : Nat}
    {r : LogRow} (h : List.Sorted logAfter rows)
    (hr : r ∈ LogRepository.afterPage rows cursor limit) : logAfter cursor r := by
  rw [afterPage_eq_take cursor limit h] at hr
  have hmem := List.mem_of_mem_take hr
  have := (List.mem_filter.mp hmem).2
  simpa using this

theorem afterPage_no_skip {rows : List LogRow} {cursor : LogRow} {limit : Nat}
    {r : LogRow} (h : List.Sorted logAfter rows)
    (hr : r ∈ rows) (hafter : logAfter cursor r)
    (hnot : r ∉ LogRepository.afterPage rows cursor limit) :
    ∀ p ∈ LogRepository.afterPage rows cursor limit, logAfter p r := by
  rw [afterPage_eq_take cursor limit h] at hnot ⊢
  have hrA : r ∈ rows.filter fun x => decide (logAfter cursor x) :=
    List.mem_filter.mpr ⟨hr, by simpa using hafter⟩
  have hsortedA : List.Sorted logAfter (rows.filter fun x => decide (logAfter cursor x)) :=
    sorted_logAfter_filter h _
  have hsplit := List.take_append_drop limit (rows.filter fun x => decide (logAfter cursor x))
  rw [← hsplit] at hrA hsortedA
  have hrdrop : r ∈ (rows.filter fun x => decide (logAfter cursor x)).drop limit := by
    rcases List.mem_append.mp hrA with h1 | h2
    · exact absurd h1 hnot
    · exact h2
  intro p hp
  exact (List.pairwise_append.mp hsortedA).2.2 p hp r hrdrop

/-! ## Claim C5 -/

/-- Claim C5: for every paginated log read, by deployment or by stack, over a
table whose `(created_at, id)` keys are strictly increasing: with no cursor
the read returns the most recent `limit` rows in ascending `(created_at, id)`
order; with a cursor naming an existing log row it returns the first `limit`
matching rows strictly after that row's `(created_at, id)`, in ascending
order, and every matching row it omits lies strictly after every row it
returns — so successive pages chained by the last returned id never repeat
and never skip a row that existed at read time. -/
theorem c5_log_pagination (logs : List LogRow) (deploymentId stackId limit cid : Nat)
    (c : LogRow)
    (hsorted : List.Sorted logAfter logs)
    (hcursor : logs.find? (fun r => r.id == cid) = some c) :
    let depRows := logs.filter fun r => r.deploymentId == deploymentId
    let stkRows := logs.filter fun r => r.stackId == stackId
    let depPage := LogRepository.getLogsByDeploymentID logs deploymentId limit (some cid)
    let stkPage := LogRepository.getLogsByStackID logs stackId limit (some cid)
    (LogRepository.getLogsByDeploymentID logs deploymentId limit none =
      depRows.drop (depRows.length - limit))
    ∧ List.Sorted logAfter (LogRepository.getLogsByDeploymentID logs deploymentId limit none)
    ∧ depPage = (depRows.filter fun r => decide (logAfter c r)).take limit
    ∧ List.Sorted logAfter depPage
    ∧ (∀ r ∈ depPage, logAfter c r)
    ∧ (∀ r ∈ depRows, logAfter c r → r ∉ depPage → ∀ p ∈ depPage, logAfter p r)
    ∧ (LogRepository.getLogsByStackID logs stackId limit none =
      stkRows.drop (stkRows.length - limit))
    ∧ List.Sorted logAfter (LogRepository.getLogsByStackID logs stackId limit none)
    ∧ stkPage = (stkRows.filter fun r => decide (logAfter c r)).take limit
    ∧ List.Sorted logAfter stkPage
    ∧ (∀ r ∈ stkPage, logAfter c r)
    ∧ (∀ r ∈ stkRows, logAfter c r → r ∉ stkPage → ∀ p ∈ stkPage, logAfter p r) := by
  intro depRows stkRows depPage stkPage
  have hdep : List.Sorted logAfter depRows := sorted_logAfter_filter hsorted _
  have hstk : List.Sorted logAfter stkRows := sorted_logAfter_filter hsorted _
  have hdepPage : depPage = LogRepository.afterPage depRows c limit := by
    simp only [depPage, LogRepository.getLogsByDeploymentID, hcursor]
  have hstkPage : stkPage = LogRepository.afterPage stkRows c limit := by
    simp only [stkPage, LogRepository.getLogsByStackID, hcursor]
  refine ⟨?_, ?_, ?_, ?_, ?_, ?_, ?_, ?_, ?_, ?_, ?_, ?_⟩
  · simpa only [LogRepository.getLogsByDeploymentID] using recentPage_eq_drop limit hdep
  · have := recentPage_eq_drop limit hdep
    simp only [LogRepository.getLogsByDeploymentID, this]
    exact List.Pairwise.sublist (List.drop_sublist _ _) hdep
  · rw [hdepPage]
    exact afterPage_eq_take c limit hdep
  · rw [hdepPage]
    exact afterPage_sorted c limit hdep
  · intro r hr
    rw [hdepPage] at hr
    exact afterPage_mem_after hdep hr
  · intro r hr hafter hnot p hp
    rw [hdepPage] at hnot hp
    exact afterPage_no_skip hdep hr hafter hnot p hp
  · simpa only [LogRepository.getLogsByStackID] using recentPage_eq_drop limit hstk
  · have := recentPage_eq_drop limit hstk
    simp only [LogRepository.getLogsByStackID, this]
    exact List.Pairwise.sublist (List.drop_sublist _ _) hstk
  · rw [hstkPage]
    exact afterPage_eq_take c limit hstk
  · rw [hstkPage]
    exact afterPage_sorted c limit hstk
  · intro r hr
    rw [hstkPage] at hr
    exact afterPage_mem_after hstk hr
  · intro r hr hafter hnot p hp
    rw [hstkPage] at hnot hp
    exact afterPage_no_skip hstk hr hafter hnot p hp

/-- Sample log table for the pagination claims: three rows of deployment 2 on
stack 1 with strictly increasing `(created_at, id)` keys. -/
def sampleLogs : List LogRow :=
  [{ id := 1, createdAt := 10, stackId := 1, deploymentId := 2, message := "a" },
    { id := 2, createdAt := 20, stackId := 1, deploymentId := 2, message := "b" },
    { id := 3, createdAt := 30, stackId := 1, deploymentId := 2, message := "c" }]

/-- Witness for claim C5 at a concrete table: the cursor page after row id 1
returns rows 2 and 3 in ascending order. -/
theorem c5_log_pagination_witness :
    LogRepository.getLogsByDeploymentID sampleLogs 2 2 (some 1) =
      [{ id := 2, createdAt := 20, stackId := 1, deploymentId := 2, message := "b" },
        { id := 3, createdAt := 30, stackId := 1, deploymentId := 2, message := "c" }] := by
  have h := (c5_log_pagination sampleLogs 2 1 2 1
    { id := 1, createdAt := 10, stackId := 1, deploymentId := 2, message := "a" }
    (by decide) (by decide)).2.2.1
  rw [h]
  decide

/-! ## Claim C10 -/

/-- Claim C10: a paginated log read whose `afterID` names no existing log row
does not fail and silently falls back to the no-cursor behaviour — it returns
exactly the no-cursor page, which is nonempty whenever the limit is positive
and the deployment (resp. stack) has at least one log row. -/
theorem c10_dangling_cursor_fallback (logs : List LogRow)
    (deploymentId stackId limit cid : Nat)
    (hnone : ∀ r ∈ logs, r.id ≠ cid) :
    (LogRepository.getLogsByDeploymentID logs deploymentId limit (some cid) =
      LogRepository.getLogsByDeploymentID logs deploymentId limit none)
    ∧ (LogRepository.getLogsByStackID logs stackId limit (some cid) =
      LogRepository.getLogsByStackID logs stackId limit none)
    ∧ (1 ≤ limit → (∃ r ∈ logs, r.deploymentId = deploymentId) →
        LogRepository.getLogsByDeploymentID logs deploymentId limit (some cid) ≠ [])
    ∧ (1 ≤ limit → (∃ r ∈ logs, r.stackId = stackId) →
        LogRepository.getLogsByStackID logs stackId limit (some cid) ≠ []) := by
  have hfind : logs.find? (fun r => r.id == cid) = none :=
    List.find?_eq_none.mpr fun r hr => by simp [hnone r hr]
  have hdepEq : LogRepository.getLogsByDeploymentID logs deploymentId limit (some cid) =
      LogRepository.getLogsByDeploymentID logs deploymentId limit none := by
    simp only [LogRepository.getLogsByDeploymentID, hfind]
  have hstkEq : LogRepository.getLogsByStackID logs stackId limit (some cid) =
      LogRepository.getLogsByStackID logs stackId limit none := by
    simp only [LogRepository.getLogsByStackID, hfind]
  refine ⟨hdepEq, hstkEq, ?_, ?_⟩
  · intro hlim ⟨r, hr, hrdep⟩
    rw [hdepEq]
    have hmem : r ∈ logs.filter fun x => x.deploymentId == deploymentId :=
      List.mem_filter.mpr ⟨hr, by simp [hrdep]⟩
    have hlen := length_recentPage (logs.filter fun x => x.deploymentId == deploymentId) limit
    have hpos : 0 < (logs.filter fun x => x.deploymentId == deploymentId).length :=
      List.length_pos.mpr (List.ne_nil_of_mem hmem)
    intro hempty
    have hre : LogRepository.recentPage
        (logs.filter fun x => x.deploymentId == deploymentId) limit = [] := hempty
    rw [hre] at hlen
    simp only [List.length_nil] at hlen
    omega
  · intro hlim ⟨r, hr, hrstk⟩
    rw [hstkEq]
    have hmem : r ∈ logs.filter fun x => x.stackId == stackId :=
      List.mem_filter.mpr ⟨hr, by simp [hrstk]⟩
    have hlen := length_recentPage (logs.filter fun x => x.stackId == stackId) limit
    have hpos : 0 < (logs.filter fun x => x.stackId == stackId).length :=
      List.length_pos.mpr (List.ne_nil_of_mem hmem)
    intro hempty
    have hre : LogRepository.recentPage
        (logs.filter fun x => x.stackId == stackId) limit = [] := hempty
    rw [hre] at hlen
    simp only [List.length_nil] at hlen
    omega

/-- Witness for claim C10 at a concrete table: an unknown cursor id returns
the most recent two rows in ascending order, the same as the no-cursor
read. -/
theorem c10_dangling_cursor_fallback_witness :
    LogRepository.getLogsByDeploymentID sampleLogs 2 2 (some 99) =
      LogRepository.getLogsByDeploymentID sampleLogs 2 2 none ∧
    LogRepository.getLogsByDeploymentID sampleLogs 2 2 (some 99) ≠ [] := by
  have h := c10_dangling_cursor_fallback sampleLogs 2 1 2 99 (by decide)
  exact ⟨h.1, h.2.2.1 (by decide)
    ⟨{ id := 1, createdAt := 10, stackId := 1, deploymentId := 2, message := "a" },
      by decide, rfl⟩⟩

/-! ## Concrete sample rows used by counterexamples and witnesses -/

def sampleConfig : DeployThanosRequest :=
  { network := "Testnet"
    registerCandidate := false
    l1RpcUrl := "rpc"
    l1BeaconUrl := "beacon"
    chainName := "chain"
    rest := "" }

def sampleStack (status : StackStatus) : StackEntity :=
  { id := 1
    name := "thanos"
    network := "Testnet"
    config := sampleConfig
    deploymentPath := "path"
    status := status
    reason := ""
    metadataBridgeUrl := "" }

def sampleBridgeRow (status : DeploymentStatus) : IntegrationEntity :=
  { id := 10
    stackId := 1
    type := enum.IntegrationTypeBridge
    status := status
    config := ""
    info := ""
    reason := ""
    logPath := "" }

def sampleRcRow (status : DeploymentStatus) : IntegrationEntity :=
  { id := 11
    stackId := 1
    type := enum.IntegrationTypeRegisterCandidate
    status := status
    config := ""
    info := ""
    reason := ""
    logPath := "" }

def sampleDeploymentRow (id : Nat) (status : DeploymentRunStatus) : DeploymentEntity :=
  { id := id
    stackId := 1
    step := constants.DeployInfraStep
    status := status
    logPath := ""
    config := ""
    startedAt := none
    finishedAt := none }

/-! ## Claim C1 -/

/-- Claim C1, as stated, is false on the code: after a non-cancellation
deploy error the bulk integration update excludes the register-candidate type
— not the bridge — so on a stack with a `Pending` Bridge row and a `Pending`
Candidate-Registration row the Bridge row is marked `Failed` and the
Candidate-Registration row keeps `Pending`, the opposite of the claim. -/
theorem c1_deploy_failure_counterexample :
    let db0 : DB :=
      { stackRows := [sampleStack StackStatus.Deploying]
        deployments := []
        integrations :=
          [sampleBridgeRow DeploymentStatus.Pending, sampleRcRow DeploymentStatus.Pending] }
    let db1 := ThanosService.deployOnFailure db0 1 "boom"
    db1.integrations =
      [sampleBridgeRow DeploymentStatus.Failed, sampleRcRow DeploymentStatus.Pending]
    ∧ sampleBridgeRow DeploymentStatus.Pending ∉ db1.integrations
    ∧ sampleRcRow DeploymentStatus.Failed ∉ db1.integrations := by
  decide

/-- Claim C1 (amended): for every deploy task that ends with a
non-cancellation error, the Stack's status is set to `FailedToDeploy` with
the error text as reason, every integration row of the stack that is neither
`Terminated` nor of the register-candidate type — the Bridge row included —
is marked `Failed`, and the Candidate-Registration row keeps its previous
status (as does any already-`Terminated` row); deployment rows are not
touched by this branch. -/
theorem c1_deploy_failure_amended (db : DB) (stackId : Nat) (errMsg : String)
    (hmsg : errMsg ≠ "") :
    let db1 := ThanosService.deployOnFailure db stackId errMsg
    (∀ s ∈ db.stackRows, s.id = stackId →
      { s with status := StackStatus.FailedToDeploy, reason := errMsg } ∈ db1.stackRows)
    ∧ (∀ i ∈ db.integrations, i.stackId = stackId →
      i.type ≠ enum.IntegrationTypeRegisterCandidate →
      i.status ≠ DeploymentStatus.Terminated →
      { i with status := DeploymentStatus.Failed } ∈ db1.integrations)
    ∧ (∀ i ∈ db.integrations, i.type = enum.IntegrationTypeRegisterCandidate →
      i ∈ db1.integrations)
    ∧ (∀ i ∈ db.integrations, i.status = DeploymentStatus.Terminated →
      i ∈ db1.integrations)
    ∧ db1.deployments = db.deployments := by
  intro db1
  simp only [db1, ThanosService.deployOnFailure, StackRepository.updateStatus,
    IntegrationRepository.updateIntegrationsStatusByStackID]
  refine ⟨?_, ?_, ?_, ?_, trivial⟩
  · intro s hs hid
    refine List.mem_map.mpr ⟨s, hs, ?_⟩
    simp [hid, hmsg]
  · intro i hi hsid htype hstatus
    refine List.mem_map.mpr ⟨i, hi, ?_⟩
    simp [hsid, htype, hstatus]
  · intro i hi htype
    refine List.mem_map.mpr ⟨i, hi, ?_⟩
    simp [htype]
  · intro i hi hstatus
    refine List.mem_map.mpr ⟨i, hi, ?_⟩
    simp [hstatus]

/-- Witness for the amended claim C1 at a concrete database: the Bridge row
is marked `Failed`, the stack row `FailedToDeploy` with the error text. -/
theorem c1_deploy_failure_amended_witness :
    sampleBridgeRow DeploymentStatus.Failed ∈
      (ThanosService.deployOnFailure
        { stackRows := [sampleStack StackStatus.Deploying]
          deployments := []
          integrations :=
            [sampleBridgeRow DeploymentStatus.Pending, sampleRcRow DeploymentStatus.Pending] }
        1 "boom").integrations := by
  have h := (c1_deploy_failure_amended
    { stackRows := [sampleStack StackStatus.Deploying]
      deployments := []
      integrations :=
        [sampleBridgeRow DeploymentStatus.Pending, sampleRcRow DeploymentStatus.Pending] }
    1 "boom" (by decide)).2.1 (sampleBridgeRow DeploymentStatus.Pending)
    (by simp) rfl (by decide) (by decide)
  simpa [sampleBridgeRow] using h

/-! ## Claim C2 -/

/-- Claim C2, as stated, is false on the code: `TerminateThanosStack` on a
`Deployed` stack synchronously writes the stack status to `Pending`, so the
persisted status moves directly from `Deployed` to `Pending` — an edge the
section-4.2 state machine does not have — and the accepted Terminate does not
write `Terminating` synchronously. -/
theorem c2_terminate_counterexample :
    let db0 : DB :=
      { stackRows := [sampleStack StackStatus.Deployed], deployments := [], integrations := [] }
    let r := ThanosService.terminateThanosStack db0 1
    StackRepository.getStackByID db0 1 = some (sampleStack StackStatus.Deployed)
    ∧ r.response.status = 200
    ∧ StackRepository.getStackByID r.db 1 = some (sampleStack StackStatus.Pending) := by
  decide

/-- Claim C2 (amended): Terminate invoked on a stack whose status is not
`Deploying`, `Updating`, or `Terminating` is accepted and synchronously sets
the stack's status to `Pending` — so the persisted status does move directly
from `Deployed` to `Pending`, outside the section-4.2 edges; the scheduled
termination task then sets the status to `Terminating` before the driver's
destroy operation runs. -/
theorem c2_terminate_amended (db : DB) (stackId : Nat) (stack : StackEntity)
    (hfind : StackRepository.getStackByID db stackId = some stack)
    (hn1 : stack.status ≠ StackStatus.Deploying)
    (hn2 : stack.status ≠ StackStatus.Updating)
    (hn3 : stack.status ≠ StackStatus.Terminating) :
    let r := ThanosService.terminateThanosStack db stackId
    r.response.status = 200
    ∧ r.scheduled = true
    ∧ ({ stack with status := StackStatus.Pending } ∈ r.db.stackRows)
    ∧ (∀ terminationDeploymentId now,
      { stack with status := StackStatus.Terminating } ∈
        (ThanosService.terminationPrepare r.db stack terminationDeploymentId true now).stackRows) := by
  intro r
  have hid : stack.id = stackId := by simpa using List.find?_some hfind
  have hr : r = ThanosService.terminateThanosStack db stackId := rfl
  simp only [ThanosService.terminateThanosStack, hfind] at hr
  rw [if_neg (by simp [hn1, hn2, hn3])] at hr
  refine ⟨by rw [hr], by rw [hr], ?_, ?_⟩
  · rw [hr]
    simp only [StackRepository.updateStatus]
    refine List.mem_map.mpr ⟨stack, List.mem_of_find?_eq_some hfind, ?_⟩
    simp [hid]
  · intro terminationDeploymentId now
    rw [hr]
    simp only [ThanosService.terminationPrepare, DeploymentRepository.createDeployment,
      IntegrationRepository.updateIntegrationsStatusByStackID, StackRepository.updateStatus,
      Bool.not_true, if_false]
    refine List.mem_map.mpr
      ⟨{ stack with status := StackStatus.Pending },
        List.mem_map.mpr ⟨stack, List.mem_of_find?_eq_some hfind, by simp [hid]⟩, ?_⟩
    simp

/-- Witness for the amended claim C2 at a concrete database: terminating a
`Deployed` stack writes `Pending` synchronously and the termination task
writes `Terminating` before the destroy call. -/
theorem c2_terminate_amended_witness :
    let db0 : DB :=
      { stackRows := [sampleStack StackStatus.Deployed], deployments := [], integrations := [] }
    let r := ThanosService.terminateThanosStack db0 1
    ({ sampleStack StackStatus.Deployed with status := StackStatus.Pending } ∈ r.db.stackRows)
    ∧ ({ sampleStack StackStatus.Deployed with status := StackStatus.Terminating } ∈
      (ThanosService.terminationPrepare r.db (sampleStack StackStatus.Deployed) 7 true 0).stackRows) := by
  have h := c2_terminate_amended
    { stackRows := [sampleStack StackStatus.Deployed], deployments := [], integrations := [] }
    1 (sampleStack StackStatus.Deployed) (by decide) (by decide) (by decide) (by decide)
  exact ⟨h.2.2.1, h.2.2.2 7 0⟩

/-! ## Claim C3 -/

/-- Claim C3, as stated, is false on the code: the bulk deployment update of
Stop excludes only `Success` rows and the bulk integration update excludes
only `Completed` rows, so on a `Deploying` stack with a `Failed` deployment
row and a `Terminated` integration row both are overwritten to `Stopped`
instead of keeping their statuses. -/
theorem c3_stop_counterexample :
    let db0 : DB :=
      { stackRows := [sampleStack StackStatus.Deploying]
        deployments :=
          [sampleDeploymentRow 20 DeploymentRunStatus.Success,
            sampleDeploymentRow 21 DeploymentRunStatus.Failed]
        integrations := [sampleBridgeRow DeploymentStatus.Terminated] }
    let r := ThanosService.stopDeployingThanosStack db0 1
    r.response.status = 200
    ∧ sampleDeploymentRow 21 DeploymentRunStatus.Failed ∉ r.db.deployments
    ∧ sampleDeploymentRow 21 DeploymentRunStatus.Stopped ∈ r.db.deployments
    ∧ sampleBridgeRow DeploymentStatus.Terminated ∉ r.db.integrations
    ∧ sampleBridgeRow DeploymentStatus.Stopped ∈ r.db.integrations := by
  decide

/-- Claim C3 (amended): when Stop is accepted on a stack in status
`Deploying`, the stack is set to `Stopped`, every Deployment row of the stack
not in `Success` — `Failed` rows included — is set to `Stopped`, every
Integration row of the stack not in `Completed` — `Terminated` rows included
— is set to `Stopped`, while `Success` deployment rows, `Completed`
integration rows, and rows of other stacks keep their status unchanged. -/
theorem c3_stop_amended (db : DB) (stackId : Nat) (stack : StackEntity)
    (hfind : StackRepository.getStackByID db stackId = some stack)
    (hst : stack.status = StackStatus.Deploying) :
    let r := ThanosService.stopDeployingThanosStack db stackId
    r.response.status = 200
    ∧ ({ stack with status := StackStatus.Stopped } ∈ r.db.stackRows)
    ∧ (∀ d ∈ db.deployments, d.stackId = stackId → d.status ≠ DeploymentRunStatus.Success →
      { d with status := DeploymentRunStatus.Stopped } ∈ r.db.deployments)
    ∧ (∀ d ∈ db.deployments, d.status = DeploymentRunStatus.Success → d ∈ r.db.deployments)
    ∧ (∀ d ∈ db.deployments, d.stackId ≠ stackId → d ∈ r.db.deployments)
    ∧ (∀ i ∈ db.integrations, i.stackId = stackId → i.status ≠ DeploymentStatus.Completed →
      { i with status := DeploymentStatus.Stopped } ∈ r.db.integrations)
    ∧ (∀ i ∈ db.integrations, i.status = DeploymentStatus.Completed → i ∈ r.db.integrations)
    ∧ (∀ i ∈ db.integrations, i.stackId ≠ stackId → i ∈ r.db.integrations) := by
  intro r
  have hid : stack.id = stackId := by simpa using List.find?_some hfind
  have hr : r = ThanosService.stopDeployingThanosStack db stackId := rfl
  simp only [ThanosService.stopDeployingThanosStack, hfind] at hr
  rw [if_neg (by simp [hst])] at hr
  simp only [StackRepository.updateStatus, DeploymentRepository.updateStatusesByStackId,
    IntegrationRepository.updateIntegrationStatusByStackID] at hr
  refine ⟨by rw [hr], ?_, ?_, ?_, ?_, ?_, ?_, ?_⟩
  · rw [hr]
    exact List.mem_map.mpr ⟨stack, List.mem_of_find?_eq_some hfind, by simp [hid]⟩
  · intro d hd hsid hsn
    rw [hr]
    exact List.mem_map.mpr ⟨d, hd, by simp [hsid, hsn]⟩
  · intro d hd hsn
    rw [hr]
    exact List.mem_map.mpr ⟨d, hd, by simp [hsn]⟩
  · intro d hd hsid
    rw [hr]
    exact List.mem_map.mpr ⟨d, hd, by simp [hsid]⟩
  · intro i hi hsid hsn
    rw [hr]
    exact List.mem_map.mpr ⟨i, hi, by simp [hsid, hsn]⟩
  · intro i hi hsn
    rw [hr]
    exact List.mem_map.mpr ⟨i, hi, by simp [hsn]⟩
  · intro i hi hsid
    rw [hr]
    exact List.mem_map.mpr ⟨i, hi, by simp [hsid]⟩

/-- Witness for the amended claim C3 at a concrete database: Stop on a
`Deploying` stack moves an `InProgress` deployment row and a `Pending`
integration row to `Stopped` and keeps a `Success` row. -/
theorem c3_stop_amended_witness :
    let db0 : DB :=
      { stackRows := [sampleStack StackStatus.Deploying]
        deployments :=
          [sampleDeploymentRow 20 DeploymentRunStatus.Success,
            sampleDeploymentRow 22 DeploymentRunStatus.InProgress]
        integrations := [sampleBridgeRow DeploymentStatus.Pending] }
    let r := ThanosService.stopDeployingThanosStack db0 1
    sampleDeploymentRow 22 DeploymentRunStatus.Stopped ∈ r.db.deployments
    ∧ sampleDeploymentRow 20 DeploymentRunStatus.Success ∈ r.db.deployments
    ∧ sampleBridgeRow DeploymentStatus.Stopped ∈ r.db.integrations := by
  have h := c3_stop_amended
    { stackRows := [sampleStack StackStatus.Deploying]
      deployments :=
        [sampleDeploymentRow 20 DeploymentRunStatus.Success,
          sampleDeploymentRow 22 DeploymentRunStatus.InProgress]
      integrations := [sampleBridgeRow DeploymentStatus.Pending] }
    1 (sampleStack StackStatus.Deploying) (by decide) rfl
  refine ⟨?_, ?_, ?_⟩
  · have := h.2.2.1 (sampleDeploymentRow 22 DeploymentRunStatus.InProgress)
      (by simp) rfl (by decide)
    simpa [sampleDeploymentRow] using this
  · exact h.2.2.2.1 (sampleDeploymentRow 20 DeploymentRunStatus.Success) (by simp) rfl
  · have := h.2.2.2.2.2.1 (sampleBridgeRow DeploymentStatus.Pending) (by simp) rfl (by decide)
    simpa [sampleBridgeRow] using this

/-! ## Claim C4 -/

/-- Claim C4, as stated, is false on the code: the bulk per-stack deployment
update excludes only `Success` rows, so a `Failed` row's status is
overwritten by it. -/
theorem c4_terminal_deployment_counterexample :
    let db0 : DB :=
      { stackRows := []
        deployments := [sampleDeploymentRow 21 DeploymentRunStatus.Failed]
        integrations := [] }
    let db1 := DeploymentRepository.updateStatusesByStackId db0 1 DeploymentRunStatus.Stopped
    sampleDeploymentRow 21 DeploymentRunStatus.Failed ∉ db1.deployments
    ∧ sampleDeploymentRow 21 DeploymentRunStatus.Stopped ∈ db1.deployments := by
  decide

/-- Claim C4 (amended): a single-row `update-status` call on a Deployment row
whose status is `Success` or `Failed` is a no-op — the row, including its
`started_at` and `finished_at`, is unchanged; the bulk per-stack update
leaves `Success` rows unchanged but does overwrite the status of `Failed`
rows (their timestamps are untouched, as the bulk update writes only the
status column). -/
theorem c4_terminal_deployment_amended (db : DB) (id stackId : Nat)
    (status : DeploymentRunStatus) (now : Nat) :
    (∀ d ∈ db.deployments,
      d.status = DeploymentRunStatus.Success ∨ d.status = DeploymentRunStatus.Failed →
      d ∈ (DeploymentRepository.updateDeploymentStatus db id status now).deployments)
    ∧ (∀ d ∈ db.deployments, d.status = DeploymentRunStatus.Success →
      d ∈ (DeploymentRepository.updateStatusesByStackId db stackId status).deployments)
    ∧ (∀ d ∈ db.deployments, d.stackId = stackId → d.status = DeploymentRunStatus.Failed →
      { d with status := status } ∈
        (DeploymentRepository.updateStatusesByStackId db stackId status).deployments) := by
  refine ⟨?_, ?_, ?_⟩
  · intro d hd hterm
    simp only [DeploymentRepository.updateDeploymentStatus]
    refine List.mem_map.mpr ⟨d, hd, ?_⟩
    rcases hterm with h | h <;> simp [h]
  · intro d hd hsucc
    simp only [DeploymentRepository.updateStatusesByStackId]
    refine List.mem_map.mpr ⟨d, hd, ?_⟩
    simp [hsucc]
  · intro d hd hsid hfail
    simp only [DeploymentRepository.updateStatusesByStackId]
    refine List.mem_map.mpr ⟨d, hd, ?_⟩
    simp [hsid, hfail]

/-- Witness for the amended claim C4 at a concrete database: the single-row
update leaves a `Failed` row untouched while the bulk update overwrites
it. -/
theorem c4_terminal_deployment_amended_witness :
    sampleDeploymentRow 21 DeploymentRunStatus.Failed ∈
      (DeploymentRepository.updateDeploymentStatus
        { stackRows := []
          deployments := [sampleDeploymentRow 21 DeploymentRunStatus.Failed]
          integrations := [] }
        21 DeploymentRunStatus.Stopped 5).deployments
    ∧ sampleDeploymentRow 21 DeploymentRunStatus.Stopped ∈
      (DeploymentRepository.updateStatusesByStackId
        { stackRows := []
          deployments := [sampleDeploymentRow 21 DeploymentRunStatus.Failed]
          integrations := [] }
        1 DeploymentRunStatus.Stopped).deployments := by
  have h := c4_terminal_deployment_amended
    { stackRows := []
      deployments := [sampleDeploymentRow 21 DeploymentRunStatus.Failed]
      integrations := [] }
    21 1 DeploymentRunStatus.Stopped 5
  refine ⟨h.1 (sampleDeploymentRow 21 DeploymentRunStatus.Failed) (by simp) (Or.inr rfl), ?_⟩
  have := h.2.2 (sampleDeploymentRow 21 DeploymentRunStatus.Failed) (by simp) rfl rfl
  simpa [sampleDeploymentRow] using this

/-! ## Claim C6 -/

/-- Claim C6: `UpdateNetwork` on a stack not in `Deployed` is rejected with
the stack unchanged; on a `Deployed` stack (with the SDK client constructed)
it sets the stack to `Updating` and schedules the task; if the driver call
succeeds the stored configuration holds the new L1 RPC and Beacon URLs and
the status returns to `Deployed`; if the driver call fails the task performs
no write at all, so the stack stays in `Updating` and `FailedToUpdate` is
never written. -/
theorem c6_update_network (db : DB) (stackId : Nat) (stack : StackEntity)
    (request : ThanosService.UpdateNetworkRequest)
    (hfind : StackRepository.getStackByID db stackId = some stack) :
    (stack.status ≠ StackStatus.Deployed →
      ∀ clientOk, ThanosService.updateNetwork db stackId request clientOk =
        { response :=
            { status := 400
              message := "Stack is not deployed, yet. Please wait for it to finish"
              dataStackId := none }
          db := db
          scheduled := false })
    ∧ (stack.status = StackStatus.Deployed →
      let r := ThanosService.updateNetwork db stackId request true
      r.response.status = 200
      ∧ r.scheduled = true
      ∧ ({ stack with status := StackStatus.Updating } ∈ r.db.stackRows)
      ∧ ({ stack with
            status := StackStatus.Deployed
            config :=
              { stack.config with
                l1RpcUrl := request.l1RpcUrl
                l1BeaconUrl := request.l1BeaconUrl } } ∈
          (ThanosService.updateNetworkTask r.db stackId stack.config request
            (Except.ok ())).stackRows)
      ∧ (∀ e, ThanosService.updateNetworkTask r.db stackId stack.config request
          (Except.error e) = r.db)) := by
  have hid : stack.id = stackId := by simpa using List.find?_some hfind
  refine ⟨?_, ?_⟩
  · intro hne clientOk
    simp only [ThanosService.updateNetwork, hfind]
    rw [if_pos hne]
  · intro hdep
    intro r
    have hr : r =
        { response := { status := 200, message := "Successfully", dataStackId := none }
          db := StackRepository.updateStatus db stackId StackStatus.Updating ""
          scheduled := true } := by
      simp only [r, ThanosService.updateNetwork, hfind]
      rw [if_neg (by simp [hdep])]
      simp
    refine ⟨by rw [hr], by rw [hr], ?_, ?_, ?_⟩
    · rw [hr]
      simp only [StackRepository.updateStatus]
      exact List.mem_map.mpr ⟨stack, List.mem_of_find?_eq_some hfind, by simp [hid]⟩
    · rw [hr]
      simp only [ThanosService.updateNetworkTask, StackRepository.updateConfig,
        StackRepository.updateStatus]
      refine List.mem_map.mpr
        ⟨{ stack with
            status := StackStatus.Updating
            config :=
              { stack.config with
                l1RpcUrl := request.l1RpcUrl
                l1BeaconUrl := request.l1BeaconUrl } },
          List.mem_map.mpr
            ⟨{ stack with status := StackStatus.Updating },
              List.mem_map.mpr ⟨stack, List.mem_of_find?_eq_some hfind, by simp [hid]⟩,
              by simp [hid]⟩,
          by simp [hid]⟩
    · intro e
      rfl

/-- Witness for claim C6 at a concrete database: on a `Deployed` stack the
synchronous part writes `Updating`, the successful task rewrites the stored
L1 RPC and Beacon URLs and returns to `Deployed`, and a failed task leaves
the database of the synchronous part untouched. -/
theorem c6_update_network_witness :
    let db0 : DB :=
      { stackRows := [sampleStack StackStatus.Deployed], deployments := [], integrations := [] }
    let req : ThanosService.UpdateNetworkRequest :=
      { l1RpcUrl := "rpc2", l1BeaconUrl := "beacon2" }
    let r := ThanosService.updateNetwork db0 1 req true
    ({ sampleStack StackStatus.Deployed with status := StackStatus.Updating } ∈ r.db.stackRows)
    ∧ ({ sampleStack StackStatus.Deployed with
          status := StackStatus.Deployed
          config := { sampleConfig with l1RpcUrl := "rpc2", l1BeaconUrl := "beacon2" } } ∈
        (ThanosService.updateNetworkTask r.db 1 sampleConfig req (Except.ok ())).stackRows)
    ∧ ThanosService.updateNetworkTask r.db 1 sampleConfig req
        (Except.error "driver failed") = r.db := by
  have h := (c6_update_network
    { stackRows := [sampleStack StackStatus.Deployed], deployments := [], integrations := [] }
    1 (sampleStack StackStatus.Deployed)
    { l1RpcUrl := "rpc2", l1BeaconUrl := "beacon2" } (by decide)).2 rfl
  exact ⟨h.2.2.1, h.2.2.2.1, h.2.2.2.2 "driver failed"⟩

/-! ## Claim C7 -/

/-- Claim C7: `CreateStack` for a fresh stack with network `Testnet` and
`registerCandidate = false` persists, in the one `CreateStackByTx`
transaction, the Stack in `Pending`, exactly one Bridge Integration row in
`Pending` and no other integration for the stack, and exactly two Deployment
rows with steps `deploy-l1-contracts` and `deploy-aws-infra`, both `Pending`,
and returns the new stack id. -/
theorem c7_create_stack (db : DB) (request : DeployThanosRequest)
    (stackId bridgeIntegrationId registerCandidateIntegrationId
      l1DeploymentId infraDeploymentId : Nat)
    (hreg : request.registerCandidate = false)
    (hnet : request.network = "Testnet")
    (hfreshS : ∀ s ∈ db.stackRows, s.id ≠ stackId)
    (hfreshD : ∀ d ∈ db.deployments, d.stackId ≠ stackId)
    (hfreshI : ∀ i ∈ db.integrations, i.stackId ≠ stackId) :
    let r := ThanosService.createThanosStack db request stackId bridgeIntegrationId
      registerCandidateIntegrationId l1DeploymentId infraDeploymentId
    r.response = { status := 200, message := "Successfully", dataStackId := some stackId }
    ∧ r.scheduled = true
    ∧ (∃ s, r.db.stackRows.filter (fun s => s.id == stackId) = [s] ∧
        s.status = StackStatus.Pending)
    ∧ (∃ b, r.db.integrations.filter (fun i => i.stackId == stackId) = [b] ∧
        b.type = enum.IntegrationTypeBridge ∧ b.status = DeploymentStatus.Pending)
    ∧ (∃ d1 d2, r.db.deployments.filter (fun d => d.stackId == stackId) = [d1, d2] ∧
        d1.step = constants.DeployL1ContractsStep ∧ d1.status = DeploymentRunStatus.Pending ∧
        d2.step = constants.DeployInfraStep ∧ d2.status = DeploymentRunStatus.Pending) := by
  intro r
  have hS : db.stackRows.filter (fun s => s.id == stackId) = [] :=
    List.filter_eq_nil_iff.mpr fun s hs => by simp [hfreshS s hs]
  have hD : db.deployments.filter (fun d => d.stackId == stackId) = [] :=
    List.filter_eq_nil_iff.mpr fun d hd => by simp [hfreshD d hd]
  have hI : db.integrations.filter (fun i => i.stackId == stackId) = [] :=
    List.filter_eq_nil_iff.mpr fun i hi => by simp [hfreshI i hi]
  have hsteps : ThanosService.getThanosStackDeployments db stackId request
      l1DeploymentId infraDeploymentId =
      [{ id := l1DeploymentId
         stackId := stackId
         step := constants.DeployL1ContractsStep
         status := DeploymentRunStatus.Pending
         logPath := getLogPath stackId constants.DeployL1ContractsStep
         config := request.l1RpcUrl ++ request.rest
         startedAt := none
         finishedAt := none },
        { id := infraDeploymentId
          stackId := stackId
          step := constants.DeployInfraStep
          status := DeploymentRunStatus.Pending
          logPath := getLogPath stackId constants.DeployInfraStep
          config := request.chainName ++ request.l1BeaconUrl
          startedAt := none
          finishedAt := none }] := by
    simp only [ThanosService.getThanosStackDeployments,
      DeploymentRepository.getDeploymentsByStackID, hD]
    simp
  refine ⟨rfl, rfl, ?_, ?_, ?_⟩
  · refine ⟨{ id := stackId
              name := "thanos"
              network := request.network
              config := request
              deploymentPath := getLogPath stackId request.network
              status := StackStatus.Pending
              reason := ""
              metadataBridgeUrl := "" }, ?_, rfl⟩
    simp only [r, ThanosService.createThanosStack, StackRepository.createStackByTx,
      List.filter_append, hS]
    simp
  · refine ⟨{ id := bridgeIntegrationId
              stackId := stackId
              type := enum.IntegrationTypeBridge
              status := DeploymentStatus.Pending
              config := ""
              info := ""
              reason := ""
              logPath := "" }, ?_, rfl, rfl⟩
    simp only [r, ThanosService.createThanosStack, StackRepository.createStackByTx,
      List.filter_append, hI, hreg]
    simp
  · refine ⟨{ id := l1DeploymentId
              stackId := stackId
              step := constants.DeployL1ContractsStep
              status := DeploymentRunStatus.Pending
              logPath := getLogPath stackId constants.DeployL1ContractsStep
              config := request.l1RpcUrl ++ request.rest
              startedAt := none
              finishedAt := none },
      { id := infraDeploymentId
        stackId := stackId
        step := constants.DeployInfraStep
        status := DeploymentRunStatus.Pending
        logPath := getLogPath stackId constants.DeployInfraStep
        config := request.chainName ++ request.l1BeaconUrl
        startedAt := none
        finishedAt := none }, ?_, rfl, rfl, rfl, rfl⟩
    simp only [r, ThanosService.createThanosStack, StackRepository.createStackByTx,
      List.filter_append, hD, hsteps]
    simp

/-- Witness for claim C7 on the empty database. -/
theorem c7_create_stack_witness :
    let r := ThanosService.createThanosStack
      { stackRows := [], deployments := [], integrations := [] }
      sampleConfig 1 10 11 20 21
    r.response = { status := 200, message := "Successfully", dataStackId := some 1 }
    ∧ (∃ b, r.db.integrations.filter (fun i => i.stackId == 1) = [b] ∧
        b.type = enum.IntegrationTypeBridge ∧ b.status = DeploymentStatus.Pending) := by
  have h := c7_create_stack { stackRows := [], deployments := [], integrations := [] }
    sampleConfig 1 10 11 20 21 rfl rfl
    (by intro s hs; simp at hs) (by intro d hd; simp at hd) (by intro i hi; simp at hi)
  exact ⟨h.1, h.2.2.2.1⟩

/-! ## Claim C8 -/

/-- Claim C8: Install Bridge on a `Deployed` stack that already has a Bridge
Integration row in any non-`Terminated` status is rejected with the message
"There is already an active bridge", and neither a new Integration row is
created nor an install task scheduled — the database is returned
unchanged. -/
theorem c8_bridge_install_duplicate (db : DB) (stackId newIntegrationId : Nat)
    (stack : StackEntity) (i : IntegrationEntity)
    (hfind : StackRepository.getStackByID db stackId = some stack)
    (hst : stack.status = StackStatus.Deployed)
    (hi : i ∈ db.integrations) (hisid : i.stackId = stackId)
    (hitype : i.type = enum.IntegrationTypeBridge)
    (hiactive : i.status ≠ DeploymentStatus.Terminated) :
    BridgeIntegration.install db stackId newIntegrationId =
      { response :=
          { status := 400, message := "There is already an active bridge", dataStackId := none }
        db := db
        scheduled := false } := by
  have hmem : i ∈ IntegrationRepository.getActiveIntegrations db stackId
      enum.IntegrationTypeBridge :=
    List.mem_filter.mpr ⟨hi, by simp [hisid, hitype, hiactive]⟩
  have hlen : 0 < (IntegrationRepository.getActiveIntegrations db stackId
      enum.IntegrationTypeBridge).length :=
    List.length_pos.mpr (List.ne_nil_of_mem hmem)
  simp only [BridgeIntegration.install, hfind]
  rw [if_neg (by simp [hst]), if_pos hlen]

/-- Witness for claim C8 at a concrete database with an `InProgress` Bridge
row. -/
theorem c8_bridge_install_duplicate_witness :
    BridgeIntegration.install
      { stackRows := [sampleStack StackStatus.Deployed]
        deployments := []
        integrations := [sampleBridgeRow DeploymentStatus.InProgress] }
      1 99 =
      { response :=
          { status := 400, message := "There is already an active bridge", dataStackId := none }
        db :=
          { stackRows := [sampleStack StackStatus.Deployed]
            deployments := []
            integrations := [sampleBridgeRow DeploymentStatus.InProgress] }
        scheduled := false } :=
  c8_bridge_install_duplicate
    { stackRows := [sampleStack StackStatus.Deployed]
      deployments := []
      integrations := [sampleBridgeRow DeploymentStatus.InProgress] }
    1 99 (sampleStack StackStatus.Deployed) (sampleBridgeRow DeploymentStatus.InProgress)
    (by decide) rfl (by simp) rfl rfl (by decide)

/-! ## Claim C9 -/

/-- Claim C9: when the bridge uninstall task panics after its Integration row
has been loaded and its uninstall Deployment row created, the deferred
recover converts the panic into exactly the driver-error failure outcome: the
database equals the one produced by a driver error with the same message, the
Integration is set to `Failed` with the panic value as reason, and the
uninstall Deployment row is set to `Failed`. -/
theorem c9_bridge_uninstall_panic (db : DB) (stack : StackEntity)
    (stackId uninstallDeploymentId : Nat) (integration : IntegrationEntity)
    (value : String) (now now2 : Nat)
    (hinst : IntegrationRepository.getInstalledIntegration db stackId
      enum.IntegrationTypeBridge = some integration) :
    let dbp := BridgeIntegration.uninstallTask db stack stackId uninstallDeploymentId true
      (ThanosService.DriverCall.panicked value) now now2
    dbp = BridgeIntegration.uninstallTask db stack stackId uninstallDeploymentId true
      (ThanosService.DriverCall.err value) now now2
    ∧ ({ integration with status := DeploymentStatus.Failed, reason := value } ∈
      dbp.integrations)
    ∧ ({ id := uninstallDeploymentId
         stackId := stack.id
         step := constants.UninstallBridgeStep
         status := DeploymentRunStatus.Failed
         logPath := getLogPath stack.id "uninstall-bridge"
         config := "\x7b\x7d"
         startedAt := some now
         finishedAt := some now2 } ∈ dbp.deployments) := by
  intro dbp
  have hp : dbp = BridgeIntegration.uninstallTask db stack stackId uninstallDeploymentId true
      (ThanosService.DriverCall.panicked value) now now2 := rfl
  simp only [BridgeIntegration.uninstallTask, hinst] at hp
  have he : BridgeIntegration.uninstallTask db stack stackId uninstallDeploymentId true
      (ThanosService.DriverCall.err value) now now2 =
      BridgeIntegration.uninstallTask db stack stackId uninstallDeploymentId true
        (ThanosService.DriverCall.panicked value) now now2 := by
    simp only [BridgeIntegration.uninstallTask, hinst]
  refine ⟨he.symm, ?_, ?_⟩
  · rw [hp]
    simp only [IntegrationRepository.updateIntegrationStatusWithReason,
      IntegrationRepository.updateIntegrationStatus,
      DeploymentRepository.updateDeploymentStatus, DeploymentRepository.createDeployment,
      Bool.not_true, if_false]
    refine List.mem_map.mpr
      ⟨{ integration with status := DeploymentStatus.Terminating },
        List.mem_map.mpr ⟨integration, List.mem_of_find?_eq_some hinst, by simp⟩, by simp⟩
  · rw [hp]
    simp only [IntegrationRepository.updateIntegrationStatusWithReason,
      IntegrationRepository.updateIntegrationStatus,
      DeploymentRepository.updateDeploymentStatus, DeploymentRepository.createDeployment,
      Bool.not_true, if_false]
    refine List.mem_map.mpr
      ⟨{ id := uninstallDeploymentId
         stackId := stack.id
         step := constants.UninstallBridgeStep
         status := DeploymentRunStatus.InProgress
         logPath := getLogPath stack.id "uninstall-bridge"
         config := "\x7b\x7d"
         startedAt := some now
         finishedAt := none }, ?_, by simp⟩
    simp

/-- Witness for claim C9 at a concrete database: a panic with value "boom"
during the bridge uninstall leaves the integration `Failed` with reason
"boom". -/
theorem c9_bridge_uninstall_panic_witness :
    { sampleBridgeRow DeploymentStatus.Completed with
        status := DeploymentStatus.Failed, reason := "boom" } ∈
      (BridgeIntegration.uninstallTask
        { stackRows := [sampleStack StackStatus.Deployed]
          deployments := []
          integrations := [sampleBridgeRow DeploymentStatus.Completed] }
        (sampleStack StackStatus.Deployed) 1 30 true
        (ThanosService.DriverCall.panicked "boom") 4 5).integrations := by
  have h := c9_bridge_uninstall_panic
    { stackRows := [sampleStack StackStatus.Deployed]
      deployments := []
      integrations := [sampleBridgeRow DeploymentStatus.Completed] }
    (sampleStack StackStatus.Deployed) 1 30 (sampleBridgeRow DeploymentStatus.Completed)
    "boom" 4 5 (by decide)
  exact h.2.1

end TrhPlatform
